import Mathlib

/-!
Verification of the X11KVS proof-of-work hash (src/Native/libmultihash/x11kvs.c).

The file shallowly embeds the C source.  Byte buffers are `List Nat`
(one entry per byte), unsigned 32-bit arithmetic is `Nat` with explicit
`% 4294967296`.  The eleven external 512-bit primitives (sph_blake512 …
sph_echo512) and SHA256 live outside this repository's core file; the
embedding is parameterised over them by the structure `Prims`, which
records exactly the interface the C code relies on: each primitive maps an
input buffer to a 64-byte digest, and SHA256 maps an input buffer to a
32-byte digest.  Every theorem below is proved for an arbitrary such
family, hence in particular for the real primitives.
-/

namespace X11KVS

/-- Interface of the external hash collaborators used by x11kvs.c:
eleven 512-bit primitives indexed 0..10 (the order of the switch cases in
`x11kv`: blake, bmw, groestl, skein, jh, keccak, luffa, cubehash, shavite,
simd, echo), each returning a 64-byte digest, and SHA256 returning a
32-byte digest. -/
structure Prims where
  prim : Fin 11 → List Nat → List Nat
  sha256 : List Nat → List Nat
  prim_length : ∀ k input, (prim k input).length = 64
  sha256_length : ∀ input, (sha256 input).length = 32

/-- Constant from x11kvs.c line 42. -/
def HASHX11KV_MIN_NUMBER_ITERATIONS : Nat := 2

/-- Constant from x11kvs.c line 43. -/
def HASHX11KV_MAX_NUMBER_ITERATIONS : Nat := 6

/-- Constant from x11kvs.c line 44. -/
def HASHX11KV_NUMBER_ALGOS : Nat := 11

/-- Constant from x11kvs.c line 135. -/
def HASHX11KVS_MAX_LEVEL : Nat := 7

/-- Constant from x11kvs.c line 136. -/
def HASHX11KVS_MIN_LEVEL : Nat := 1

/-- Constant from x11kvs.c line 137. -/
def HASHX11KVS_MAX_DRIFT : Nat := 0xFFFF

/-- Byte read `buf[i]` of a byte buffer (out-of-range reads default to 0;
all uses in the embedding are in range for well-formed inputs). -/
def byteAt (l : List Nat) (i : Nat) : Nat := l.getD i 0

/-- `le32dec(buf + off)`: little-endian decode of 4 bytes at offset `off`. -/
def le32dec (l : List Nat) (off : Nat) : Nat :=
  byteAt l off + 256 * byteAt l (off + 1) + 65536 * byteAt l (off + 2) +
    16777216 * byteAt l (off + 3)

/-- `le32enc(buf, n)`: the 4 little-endian bytes of `n`. -/
def le32enc (n : Nat) : List Nat :=
  [n % 256, n / 256 % 256, n / 65536 % 256, n / 16777216 % 256]

/-- `sha256_double_hash` (x11kvs.c lines 21-33): SHA256 over the first
`len` bytes of the input, then SHA256 over the 32-byte intermediate. -/
def sha256_double_hash (P : Prims) (input : List Nat) (len : Nat) : List Nat :=
  P.sha256 ((P.sha256 (input.take len)).take 32)

/-- One iteration of the loop in `x11kv` (x11kvs.c lines 73-131): select
primitive index `hashA[i % 64] % HASHX11KV_NUMBER_ALGOS` and feed the
64 bytes of the working digest through it. -/
def x11kvStep (P : Prims) (hashA : List Nat) (i : Nat) : List Nat :=
  P.prim ⟨byteAt hashA (i % 64) % HASHX11KV_NUMBER_ALGOS, Nat.mod_lt _ (by decide)⟩
    (hashA.take 64)

/-- The loop `for (i = 1; i < n; i++)` of `x11kv`, as fuel-counted
recursion: `x11kvRounds P hashA i fuel` performs `fuel` further steps
starting at loop counter `i`. -/
def x11kvRounds (P : Prims) : List Nat → Nat → Nat → List Nat
  | hashA, _, 0 => hashA
  | hashA, i, fuel + 1 => x11kvRounds P (x11kvStep P hashA i) (i + 1) fuel

/-- `x11kv` (x11kvs.c lines 46-133): blake512 over the 80 header bytes,
then `n - 1` data-dependent rounds with
`n = HASHX11KV_MIN_NUMBER_ITERATIONS + hashA[63] % 5`, finally the first
32 bytes of the working digest. -/
def x11kv (P : Prims) (input : List Nat) : List Nat :=
  let hashA := P.prim 0 (input.take 80)
  let n := HASHX11KV_MIN_NUMBER_ITERATIONS +
    byteAt hashA 63 %
      (HASHX11KV_MAX_NUMBER_ITERATIONS - HASHX11KV_MIN_NUMBER_ITERATIONS + 1)
  (x11kvRounds P hashA 1 (n - 1)).take 32

/-- `level - 1` on a C `unsigned int`: subtraction wraps modulo 2^32. -/
def childLevel (level : Nat) : Nat := (level + 4294967295) % 4294967296

/-- The derived child nonce of `x11kvshash` (x11kvs.c lines 155-156):
`nonce + (le32dec(hash + off) % HASHX11KVS_MAX_DRIFT)` in 32-bit
wrap-around arithmetic, where `hash` is the node's own `x11kv` digest and
`off` is 24 for the first child and 28 for the second. -/
def nextNonce (P : Prims) (input : List Nat) (off : Nat) : Nat :=
  (le32dec input 76 + le32dec (x11kv P input) off % HASHX11KVS_MAX_DRIFT) %
    4294967296

/-- The derived child header of `x11kvshash` (x11kvs.c lines 158-162):
the parent's first 76 bytes followed by the little-endian encoding of the
derived nonce. -/
def nextHeader (P : Prims) (input : List Nat) (off : Nat) : List Nat :=
  input.take 76 ++ le32enc (nextNonce P input off)

/-- The recursion measure of `x11kvshash` decreases across the wrap-around
decrement whenever the level is not the terminal 1. -/
theorem childLevel_measure (level : Nat) (h : level ≠ HASHX11KVS_MIN_LEVEL) :
    (if childLevel level = 0 then 4294967296 else childLevel level) <
      (if level = 0 then 4294967296 else level) := by
  simp only [HASHX11KVS_MIN_LEVEL] at h
  simp only [childLevel]
  split <;> split <;> omega

/-- `x11kvshash` (x11kvs.c lines 139-190): compute the node's own `x11kv`
digest; at `level == HASHX11KVS_MIN_LEVEL` return it; otherwise derive the
two child headers by nonce drift, recurse at `level - 1` (unsigned
decrement) on each, and double-SHA256 the 96-byte concatenation
self ‖ left ‖ right. -/
def x11kvshash (P : Prims) (input : List Nat) (level : Nat) : List Nat :=
  if level = HASHX11KVS_MIN_LEVEL then
    x11kv P input
  else
    sha256_double_hash P
      (x11kv P input ++ x11kvshash P (nextHeader P input 24) (childLevel level)
        ++ x11kvshash P (nextHeader P input 28) (childLevel level)) 96
termination_by (if level = 0 then 4294967296 else level)
decreasing_by
  · exact childLevel_measure level (by assumption)
  · exact childLevel_measure level (by assumption)

/-- `x11kvs_hash` (x11kvs.c lines 192-195): the public entry point calls
`x11kvshash` at `HASHX11KVS_MAX_LEVEL`; the `len` argument is not used. -/
def x11kvs_hash (P : Prims) (input : List Nat) (len : Nat) : List Nat :=
  x11kvshash P input HASHX11KVS_MAX_LEVEL

/-- The number of `x11kv` (leaf hash) invocations `x11kvshash` performs:
it follows exactly the recursion of `x11kvshash` (same child headers, same
wrap-around level decrement), counting the one `x11kv` call made at each
node. -/
def x11kvCalls (P : Prims) (input : List Nat) (level : Nat) : Nat :=
  if level = HASHX11KVS_MIN_LEVEL then
    1
  else
    1 + x11kvCalls P (nextHeader P input 24) (childLevel level)
      + x11kvCalls P (nextHeader P input 28) (childLevel level)
termination_by (if level = 0 then 4294967296 else level)
decreasing_by
  all_goals exact childLevel_measure level (by assumption)

/-! ### A concrete instantiation of the primitive interface

Used to evaluate the development on concrete inputs; every claim theorem
is proved for an arbitrary `Prims`, of which this is one instance. -/

/-- A concrete stand-in for the eleven external primitives (64-byte
output). -/
def testPrim (k : Fin 11) (input : List Nat) : List Nat :=
  List.replicate 64 ((k.val + input.foldl (fun a b => a + b) 0 + input.length) % 256)

/-- A concrete stand-in for SHA256 (32-byte output). -/
def testSha256 (input : List Nat) : List Nat :=
  List.replicate 32 ((input.foldl (fun a b => a + b) 0 + input.length) % 256)

/-- The concrete primitive family built from `testPrim` and `testSha256`. -/
def testPrims : Prims where
  prim := testPrim
  sha256 := testSha256
  prim_length := fun _ _ => List.length_replicate _ _
  sha256_length := fun _ => List.length_replicate _ _

/-- A concrete 80-byte header: all bytes zero. -/
def testHeader : List Nat := List.replicate 80 0

/-! ### Basic length and unfolding lemmas -/

/-- The working digest of the `x11kv` loop always has 64 bytes. -/
theorem x11kvRounds_length (P : Prims) :
    ∀ fuel hashA i, hashA.length = 64 → (x11kvRounds P hashA i fuel).length = 64 := by
  intro fuel
  induction fuel with
  | zero => intro hashA i h; exact h
  | succ f ih =>
    intro hashA i h
    exact ih _ _ (P.prim_length _ _)

/-- The leaf hash `x11kv` always produces a 32-byte digest. -/
theorem x11kv_length (P : Prims) (input : List Nat) :
    (x11kv P input).length = 32 := by
  unfold x11kv
  simp [List.length_take, x11kvRounds_length P _ _ _ (P.prim_length _ _)]

/-- `sha256_double_hash` always produces a 32-byte digest. -/
theorem sha256_double_hash_length (P : Prims) (input : List Nat) (len : Nat) :
    (sha256_double_hash P input len).length = 32 := by
  unfold sha256_double_hash
  exact P.sha256_length _

/-- The tree hash `x11kvshash` always produces a 32-byte digest, at every
level (including levels outside [1,7]). -/
theorem x11kvshash_length (P : Prims) (input : List Nat) (level : Nat) :
    (x11kvshash P input level).length = 32 := by
  unfold x11kvshash
  split
  · exact x11kv_length P input
  · exact sha256_double_hash_length P _ _

/-- For levels in [1, 2^32] the wrap-around decrement is plain
subtraction. -/
theorem childLevel_eq (level : Nat) (h1 : 1 ≤ level) (h2 : level ≤ 4294967296) :
    childLevel level = level - 1 := by
  unfold childLevel
  omega

/-- Unfolding of `x11kvshash` at the terminal level. -/
theorem x11kvshash_leaf (P : Prims) (input : List Nat) :
    x11kvshash P input 1 = x11kv P input := by
  unfold x11kvshash
  simp [HASHX11KVS_MIN_LEVEL]

/-- Unfolding of `x11kvshash` at an internal level. -/
theorem x11kvshash_internal (P : Prims) (input : List Nat) (level : Nat)
    (h : level ≠ 1) :
    x11kvshash P input level =
      sha256_double_hash P
        (x11kv P input ++ x11kvshash P (nextHeader P input 24) (childLevel level)
          ++ x11kvshash P (nextHeader P input 28) (childLevel level)) 96 := by
  conv_lhs => unfold x11kvshash
  simp [HASHX11KVS_MIN_LEVEL, h]

/-! ### Spec-side description of the leaf hash (for the refinement claim) -/

/-- Written from the spec's words (§4.1 step 3): for each further round,
select primitive index `k = digest[i % 64] % 11` and replace the 64-byte
working digest by primitive `k` of it. -/
def leafRoundsSpec (P : Prims) : List Nat → Nat → Nat → List Nat
  | digest, _, 0 => digest
  | digest, i, fuel + 1 =>
    leafRoundsSpec P
      (P.prim ⟨byteAt digest (i % 64) % 11, Nat.mod_lt _ (by decide)⟩ digest)
      (i + 1) fuel

/-- Written from the spec's words (§4.1): `digest0 = H0(header)`;
`n = 2 + digest0[63] % 5` (so `n ∈ [2,6]`); rounds `i = 1 .. n-1` as in
`leafRoundsSpec`; output the first 32 bytes. -/
def leafHashSpec (P : Prims) (header : List Nat) : List Nat :=
  let digest0 := P.prim 0 header
  let n := 2 + byteAt digest0 63 % 5
  (leafRoundsSpec P digest0 1 (n - 1)).take 32

/-- The source-side loop and the spec-side loop agree on 64-byte working
digests. -/
theorem x11kvRounds_eq_spec (P : Prims) :
    ∀ fuel digest i, digest.length = 64 →
      x11kvRounds P digest i fuel = leafRoundsSpec P digest i fuel := by
  intro fuel
  induction fuel with
  | zero => intro digest i _; rfl
  | succ f ih =>
    intro digest i h
    show x11kvRounds P (x11kvStep P digest i) (i + 1) f = _
    rw [x11kvStep, List.take_of_length_le (le_of_eq h)]
    exact ih _ _ (P.prim_length _ _)

/-! ### Reading bytes through `take` (for the noninterference claim) -/

/-- A byte read below the cut is unchanged by `take`. -/
theorem byteAt_take (l : List Nat) (n i : Nat) (h : i < n) :
    byteAt (l.take n) i = byteAt l i := by
  simp [byteAt, List.getD_eq_getElem?_getD, List.getElem?_take_of_lt h]

/-- A 4-byte little-endian read wholly below the cut is unchanged by
`take`. -/
theorem le32dec_take (l : List Nat) (n off : Nat) (h : off + 4 ≤ n) :
    le32dec (l.take n) off = le32dec l off := by
  unfold le32dec
  rw [byteAt_take l n off (by omega), byteAt_take l n (off + 1) (by omega),
    byteAt_take l n (off + 2) (by omega), byteAt_take l n (off + 3) (by omega)]

/-- The leaf hash depends only on the first 80 bytes of its input. -/
theorem x11kv_take80 (P : Prims) (in1 in2 : List Nat)
    (h : in1.take 80 = in2.take 80) : x11kv P in1 = x11kv P in2 := by
  unfold x11kv
  rw [h]

/-- The derived child headers depend only on the first 80 bytes of the
parent header. -/
theorem nextHeader_take80 (P : Prims) (in1 in2 : List Nat) (off : Nat)
    (h : in1.take 80 = in2.take 80) :
    nextHeader P in1 off = nextHeader P in2 off := by
  have h76 : in1.take 76 = in2.take 76 := by
    have e1 : in1.take 76 = (in1.take 80).take 76 := by
      rw [List.take_take]; norm_num
    have e2 : in2.take 76 = (in2.take 80).take 76 := by
      rw [List.take_take]; norm_num
    rw [e1, e2, h]
  have hdec : le32dec in1 76 = le32dec in2 76 := by
    rw [← le32dec_take in1 80 76 (by omega), ← le32dec_take in2 80 76 (by omega), h]
  unfold nextHeader nextNonce
  rw [h76, hdec, x11kv_take80 P in1 in2 h]

/-! ### The instrumented call count -/

/-- Unfolding of `x11kvCalls` at the terminal level. -/
theorem x11kvCalls_leaf (P : Prims) (input : List Nat) :
    x11kvCalls P input 1 = 1 := by
  unfold x11kvCalls
  simp [HASHX11KVS_MIN_LEVEL]

/-- Unfolding of `x11kvCalls` at an internal level. -/
theorem x11kvCalls_internal (P : Prims) (input : List Nat) (level : Nat)
    (h : level ≠ 1) :
    x11kvCalls P input level =
      1 + x11kvCalls P (nextHeader P input 24) (childLevel level)
        + x11kvCalls P (nextHeader P input 28) (childLevel level) := by
  conv_lhs => unfold x11kvCalls
  simp [HASHX11KVS_MIN_LEVEL, h]

/-- The call count is `2^level - 1` for every level in [1, 7]. -/
theorem x11kvCalls_eq (P : Prims) :
    ∀ level, 1 ≤ level → level ≤ 7 →
      ∀ input, x11kvCalls P input level = 2 ^ level - 1 := by
  intro level
  induction level with
  | zero => intro h1 _ _; exact absurd h1 (by omega)
  | succ k ih =>
    intro _ h2 input
    by_cases hk : k + 1 = 1
    · have hk0 : k = 0 := by omega
      subst hk0
      rw [x11kvCalls_leaf]
      norm_num
    · have hc : childLevel (k + 1) = k := by
        rw [childLevel_eq (k + 1) (by omega) (by omega), Nat.add_sub_cancel]
      rw [x11kvCalls_internal P input (k + 1) hk, hc,
        ih (by omega) (by omega), ih (by omega) (by omega)]
      have hp : 0 < 2 ^ k := pow_pos (by norm_num) k
      rw [pow_succ]
      omega

/-! ### The claims -/

/-- C1: for every 80-byte header, the public entry point `x11kvs_hash`
returns exactly the recursive tree hash at level 7 (the fixed
`HASHX11KVS_MAX_LEVEL`), a 32-byte digest; the embedding is a pure
function, so producing the digest is its only effect. -/
theorem claim_C1 (P : Prims) (input : List Nat) (len : Nat)
    (_hl : input.length = 80) :
    x11kvs_hash P input len = x11kvshash P input 7 ∧
    (x11kvs_hash P input len).length = 32 :=
  ⟨rfl, x11kvshash_length P input 7⟩

/-- Witness for C1 at a concrete header. -/
theorem claim_C1_witness :
    testHeader.length = 80 ∧
    (x11kvs_hash testPrims testHeader 80 = x11kvshash testPrims testHeader 7 ∧
      (x11kvs_hash testPrims testHeader 80).length = 32) :=
  ⟨by decide, claim_C1 testPrims testHeader 80 (by decide)⟩

/-- C2: for every 80-byte header, the tree hash at level 1 is exactly the
leaf hash `x11kv` — the terminal case returns the 32-byte leaf digest
unchanged, with no drift, recursion or double-SHA256 applied. -/
theorem claim_C2 (P : Prims) (h : List Nat) (_hl : h.length = 80) :
    x11kvshash P h 1 = x11kv P h ∧ (x11kvshash P h 1).length = 32 :=
  ⟨x11kvshash_leaf P h, x11kvshash_length P h 1⟩

/-- Witness for C2 at a concrete header. -/
theorem claim_C2_witness :
    testHeader.length = 80 ∧
    (x11kvshash testPrims testHeader 1 = x11kv testPrims testHeader ∧
      (x11kvshash testPrims testHeader 1).length = 32) :=
  ⟨by decide, claim_C2 testPrims testHeader (by decide)⟩

/-- C3: for every 80-byte header, the leaf hash follows the spec's
description: `digest0 = H0(header)` (primitive index 0, fixed), iteration
count `n = 2 + digest0[63] % 5` (hence always in [2, 6]), then for
`i = 1 .. n-1` the 64-byte working digest is replaced by primitive
`k = digest[i % 64] % 11` of it, and the output is the first 32 bytes of
the final working digest (`leafHashSpec` transcribes those words). -/
theorem claim_C3 (P : Prims) (h : List Nat) (hl : h.length = 80) :
    x11kv P h = leafHashSpec P h ∧
    2 ≤ 2 + byteAt (P.prim 0 h) 63 % 5 ∧
    2 + byteAt (P.prim 0 h) 63 % 5 ≤ 6 := by
  refine ⟨?_, by omega, by omega⟩
  unfold x11kv leafHashSpec
  rw [List.take_of_length_le (le_of_eq hl)]
  simp only [HASHX11KV_MIN_NUMBER_ITERATIONS, HASHX11KV_MAX_NUMBER_ITERATIONS]
  norm_num
  rw [x11kvRounds_eq_spec P _ _ _ (P.prim_length _ _)]

/-- Witness for C3 at a concrete header. -/
theorem claim_C3_witness :
    testHeader.length = 80 ∧
    (x11kv testPrims testHeader = leafHashSpec testPrims testHeader ∧
      2 ≤ 2 + byteAt (testPrims.prim 0 testHeader) 63 % 5 ∧
      2 + byteAt (testPrims.prim 0 testHeader) 63 % 5 ≤ 6) :=
  ⟨by decide, claim_C3 testPrims testHeader (by decide)⟩

/-- C4: at every internal node (level > 1, level a valid unsigned int),
the node recurses on exactly the two derived headers: the child nonces are
`nonce + (le32dec(selfDigest+24) % 0xFFFF)` and
`nonce + (le32dec(selfDigest+28) % 0xFFFF)` in 32-bit wrap-around
arithmetic (`nonce` being the little-endian uint32 at header offset 76),
and each child header is the parent's first 76 bytes verbatim followed by
the 4 little-endian bytes of the new nonce. -/
theorem claim_C4 (P : Prims) (h : List Nat) (level : Nat)
    (hl : h.length = 80) (hlev : 1 < level) (hlev32 : level ≤ 4294967296) :
    x11kvshash P h level =
      sha256_double_hash P
        (x11kv P h ++ x11kvshash P (nextHeader P h 24) (level - 1)
          ++ x11kvshash P (nextHeader P h 28) (level - 1)) 96 ∧
    nextNonce P h 24 = (le32dec h 76 + le32dec (x11kv P h) 24 % 0xFFFF) % 4294967296 ∧
    nextNonce P h 28 = (le32dec h 76 + le32dec (x11kv P h) 28 % 0xFFFF) % 4294967296 ∧
    (nextHeader P h 24).take 76 = h.take 76 ∧
    (nextHeader P h 28).take 76 = h.take 76 ∧
    (nextHeader P h 24).drop 76 = le32enc (nextNonce P h 24) ∧
    (nextHeader P h 28).drop 76 = le32enc (nextNonce P h 28) ∧
    (nextHeader P h 24).length = 80 ∧
    (nextHeader P h 28).length = 80 := by
  have ht : (h.take 76).length = 76 := by
    simp [List.length_take, hl]
  refine ⟨?_, rfl, rfl, List.take_left' ht, List.take_left' ht,
    List.drop_left' ht, List.drop_left' ht, ?_, ?_⟩
  · rw [x11kvshash_internal P h level (by omega),
      childLevel_eq level (by omega) hlev32]
  · simp [nextHeader, ht, le32enc]
  · simp [nextHeader, ht, le32enc]

/-- Witness for C4 at a concrete header and level 2. -/
theorem claim_C4_witness :
    (testHeader.length = 80 ∧ 1 < 2 ∧ 2 ≤ 4294967296) ∧
    (x11kvshash testPrims testHeader 2 =
      sha256_double_hash testPrims
        (x11kv testPrims testHeader
          ++ x11kvshash testPrims (nextHeader testPrims testHeader 24) (2 - 1)
          ++ x11kvshash testPrims (nextHeader testPrims testHeader 28) (2 - 1)) 96 ∧
    nextNonce testPrims testHeader 24 =
      (le32dec testHeader 76 +
        le32dec (x11kv testPrims testHeader) 24 % 0xFFFF) % 4294967296 ∧
    nextNonce testPrims testHeader 28 =
      (le32dec testHeader 76 +
        le32dec (x11kv testPrims testHeader) 28 % 0xFFFF) % 4294967296 ∧
    (nextHeader testPrims testHeader 24).take 76 = testHeader.take 76 ∧
    (nextHeader testPrims testHeader 28).take 76 = testHeader.take 76 ∧
    (nextHeader testPrims testHeader 24).drop 76 =
      le32enc (nextNonce testPrims testHeader 24) ∧
    (nextHeader testPrims testHeader 28).drop 76 =
      le32enc (nextNonce testPrims testHeader 28) ∧
    (nextHeader testPrims testHeader 24).length = 80 ∧
    (nextHeader testPrims testHeader 28).length = 80) :=
  ⟨⟨by decide, by decide, by decide⟩,
    claim_C4 testPrims testHeader 2 (by decide) (by decide) (by decide)⟩

/-- C5: for every 80-byte header and every internal level, both derived
child nonces drift from the original nonce by strictly less than 0xFFFF in
unsigned 32-bit wrap-around arithmetic:
`(derived - original) mod 2^32 < 0xFFFF` (and the representative is
non-negative). -/
theorem claim_C5 (P : Prims) (h : List Nat) (level : Nat)
    (_hl : h.length = 80) (_hlev : 1 < level) :
    (((nextNonce P h 24 : Int) - (le32dec h 76 : Int)) % 4294967296 < 65535 ∧
      0 ≤ ((nextNonce P h 24 : Int) - (le32dec h 76 : Int)) % 4294967296) ∧
    (((nextNonce P h 28 : Int) - (le32dec h 76 : Int)) % 4294967296 < 65535 ∧
      0 ≤ ((nextNonce P h 28 : Int) - (le32dec h 76 : Int)) % 4294967296) := by
  simp only [nextNonce, HASHX11KVS_MAX_DRIFT]
  refine ⟨⟨?_, ?_⟩, ⟨?_, ?_⟩⟩ <;> omega

/-- Witness for C5 at a concrete header and level 2. -/
theorem claim_C5_witness :
    (testHeader.length = 80 ∧ 1 < 2) ∧
    ((((nextNonce testPrims testHeader 24 : Int) -
        (le32dec testHeader 76 : Int)) % 4294967296 < 65535 ∧
      0 ≤ ((nextNonce testPrims testHeader 24 : Int) -
        (le32dec testHeader 76 : Int)) % 4294967296) ∧
    (((nextNonce testPrims testHeader 28 : Int) -
        (le32dec testHeader 76 : Int)) % 4294967296 < 65535 ∧
      0 ≤ ((nextNonce testPrims testHeader 28 : Int) -
        (le32dec testHeader 76 : Int)) % 4294967296)) :=
  ⟨⟨by decide, by decide⟩, claim_C5 testPrims testHeader 2 (by decide) (by decide)⟩

/-- C6: at every internal node (level > 1, level a valid unsigned int),
the node's 32-byte output is the 256-bit hash applied twice to the 96-byte
concatenation selfDigest ‖ digestLeft ‖ digestRight, in that fixed
order. -/
theorem claim_C6 (P : Prims) (h : List Nat) (level : Nat)
    (_hl : h.length = 80) (hlev : 1 < level) (hlev32 : level ≤ 4294967296) :
    x11kvshash P h level =
      P.sha256 (P.sha256 (x11kv P h
        ++ x11kvshash P (nextHeader P h 24) (level - 1)
        ++ x11kvshash P (nextHeader P h 28) (level - 1))) ∧
    (x11kv P h ++ x11kvshash P (nextHeader P h 24) (level - 1)
      ++ x11kvshash P (nextHeader P h 28) (level - 1)).length = 96 := by
  have hlen : (x11kv P h ++ x11kvshash P (nextHeader P h 24) (level - 1)
      ++ x11kvshash P (nextHeader P h 28) (level - 1)).length = 96 := by
    simp [List.length_append, x11kv_length, x11kvshash_length]
  refine ⟨?_, hlen⟩
  rw [x11kvshash_internal P h level (by omega),
    childLevel_eq level (by omega) hlev32]
  unfold sha256_double_hash
  rw [List.take_of_length_le (le_of_eq hlen),
    List.take_of_length_le (le_of_eq (P.sha256_length _))]

/-- Witness for C6 at a concrete header and level 2. -/
theorem claim_C6_witness :
    (testHeader.length = 80 ∧ 1 < 2 ∧ 2 ≤ 4294967296) ∧
    (x11kvshash testPrims testHeader 2 =
      testPrims.sha256 (testPrims.sha256 (x11kv testPrims testHeader
        ++ x11kvshash testPrims (nextHeader testPrims testHeader 24) (2 - 1)
        ++ x11kvshash testPrims (nextHeader testPrims testHeader 28) (2 - 1))) ∧
    (x11kv testPrims testHeader
      ++ x11kvshash testPrims (nextHeader testPrims testHeader 24) (2 - 1)
      ++ x11kvshash testPrims (nextHeader testPrims testHeader 28) (2 - 1)).length = 96) :=
  ⟨⟨by decide, by decide, by decide⟩,
    claim_C6 testPrims testHeader 2 (by decide) (by decide) (by decide)⟩

/-- C7: for every header and every level in [1, 7], the tree hash
invokes the leaf hash `x11kv` exactly `2^level - 1` times (`x11kvCalls`
follows the exact recursion of `x11kvshash`, counting the one `x11kv`
call per node); at level 7 this is 127 leaf-hash evaluations. -/
theorem claim_C7 (P : Prims) (h : List Nat) (level : Nat)
    (h1 : 1 ≤ level) (h7 : level ≤ 7) :
    x11kvCalls P h level = 2 ^ level - 1 :=
  x11kvCalls_eq P level h1 h7 h

/-- Witness for C7 at a concrete header and the top level 7
(2^7 - 1 = 127). -/
theorem claim_C7_witness :
    (1 ≤ 7 ∧ 7 ≤ 7) ∧ x11kvCalls testPrims testHeader 7 = 2 ^ 7 - 1 :=
  ⟨⟨by decide, by decide⟩, claim_C7 testPrims testHeader 7 (by decide) (by decide)⟩

/-- C8 counterexample: the entry point performs no length validation.
With the declared length 0 (malformed: not 80), the computation still
proceeds — it runs the full level-7 tree hash and returns a 32-byte
digest — refuting "there exists no malformed-length input for which the
computation proceeds and produces a digest". -/
theorem claim_C8_counterexample :
    (0 : Nat) ≠ 80 ∧
    x11kvs_hash testPrims testHeader 0 = x11kvshash testPrims testHeader 7 ∧
    (x11kvs_hash testPrims testHeader 0).length = 32 :=
  ⟨by decide, rfl, x11kvshash_length testPrims testHeader 7⟩

/-- C8 amended: the entry point ignores its length argument entirely and
never fails: for every input buffer and any two declared lengths it
returns the same 32-byte digest, with no invalid-input error path. -/
theorem claim_C8_amended (P : Prims) (input : List Nat) (len1 len2 : Nat) :
    x11kvs_hash P input len1 = x11kvs_hash P input len2 ∧
    (x11kvs_hash P input len1).length = 32 :=
  ⟨rfl, x11kvshash_length P input HASHX11KVS_MAX_LEVEL⟩

/-- C9 counterexample: the recursive tree hash has no level guard. Called
directly with level 8 (outside [1, 7]) it does not fail with an
invalid-argument error: it recurses and produces a 32-byte digest; and at
level 0 the unsigned decrement underflows to 2^32 - 1 instead of raising
an error. -/
theorem claim_C9_counterexample :
    ¬ (8 ≤ 7) ∧
    (x11kvshash testPrims testHeader 8).length = 32 ∧
    childLevel 0 = 4294967295 :=
  ⟨by decide, x11kvshash_length testPrims testHeader 8, by decide⟩

/-- C9 amended: the recursive function performs no level validation; for
every level in [1, 2^32] the recursion terminates (the function is total)
and returns a 32-byte digest, with the level counter stepping by plain
subtraction — in particular this covers all of [1, 7] and also
out-of-range levels such as 8 — and a direct call at level 0 underflows
the unsigned level counter to 2^32 - 1 rather than failing. -/
theorem claim_C9_amended (P : Prims) (input : List Nat) (level : Nat)
    (h1 : 1 ≤ level) (h2 : level ≤ 4294967296) :
    (x11kvshash P input level).length = 32 ∧
    childLevel level = level - 1 ∧
    childLevel 0 = 4294967295 :=
  ⟨x11kvshash_length P input level, childLevel_eq level h1 h2, by decide⟩

/-- Witness for the amended C9 at the out-of-range level 8. -/
theorem claim_C9_amended_witness :
    (1 ≤ 8 ∧ 8 ≤ 4294967296) ∧
    ((x11kvshash testPrims testHeader 8).length = 32 ∧
      childLevel 8 = 8 - 1 ∧
      childLevel 0 = 4294967295) :=
  ⟨⟨by decide, by decide⟩, claim_C9_amended testPrims testHeader 8 (by decide) (by decide)⟩

/-- C10: the length argument of the entry point has no influence on the
result, and the result depends only on the first 80 bytes of the input:
any two runs on buffers agreeing on their first 80 bytes, with any two
declared lengths, produce the same output. -/
theorem claim_C10 (P : Prims) (in1 in2 : List Nat) (len1 len2 : Nat)
    (h : in1.take 80 = in2.take 80) :
    x11kvs_hash P in1 len1 = x11kvs_hash P in2 len2 := by
  show x11kvshash P in1 HASHX11KVS_MAX_LEVEL = x11kvshash P in2 HASHX11KVS_MAX_LEVEL
  rw [x11kvshash_internal P in1 HASHX11KVS_MAX_LEVEL (by decide),
    x11kvshash_internal P in2 HASHX11KVS_MAX_LEVEL (by decide),
    x11kv_take80 P in1 in2 h, nextHeader_take80 P in1 in2 24 h,
    nextHeader_take80 P in1 in2 28 h]

/-- Witness for C10: an 80-byte buffer and an 81-byte extension of it,
with different declared lengths, hash identically. -/
theorem claim_C10_witness :
    testHeader.take 80 = (testHeader ++ [5]).take 80 ∧
    x11kvs_hash testPrims testHeader 80 = x11kvs_hash testPrims (testHeader ++ [5]) 81 :=
  ⟨by decide, claim_C10 testPrims testHeader (testHeader ++ [5]) 80 81 (by decide)⟩

end X11KVS
